import Mathlib

/-!
Verification of the `ipfs-sync` reconciliation program (`src/main.rs`) against
its natural-language specification.

The program mirrors a local directory tree onto a remote MFS tree.  We give a
shallow embedding in Lean: the local tree is modelled together with the
outcomes the external collaborators (local filesystem, IPFS store client)
return at each call site, as `Except String` values attached to the tree
nodes; the mutable state threaded through the Rust walk (`mfsents`, `errs`,
`nextflush`) becomes explicit state passing; the remote-store operations the
walk issues are collected in a `Trace`.
-/

namespace IpfsSync

/-- A remote MFS path, as a list of components (the model keeps paths always
representable as unicode strings). -/
abbrev Path := List String

/-- Rendering of a path for log messages. -/
def pathStr (p : Path) : String := String.intercalate "/" p

/-- The configuration/context record threaded through `re_curse`
(Rust `struct Env`): verbosity, the flush interval captured by the `flush`
closure, the `nocopy` flag and the optional `syncfrom` ctime threshold. -/
structure Env where
  verbosity : Nat
  flushivl : Option Nat
  nocopy : Bool
  syncfrom : Option Int
deriving Repr

/-- Trace of the remote-store operations a run issues: file uploads
(`mfs.cd(name).cpf(hash)` during the walk), stale-entry deletions
(`mfs.cd(&ment).rm()`), symlink-pass copies (`from.cpf(&stat.Hash)`),
the number of flush calls issued, the error log lines printed, and the
directories that were removed-and-recreated after a failed listing. -/
structure Trace where
  uploads : List (Path × String)
  deletes : List Path
  copies : List (Path × String)
  flushes : Nat
  logs : List String
  recreated : List Path
deriving Repr, DecidableEq

/-- The empty trace. -/
def Trace.empty : Trace := ⟨[], [], [], 0, [], []⟩

/-- Concatenation of traces (sequential composition of the operations). -/
def Trace.app (a b : Trace) : Trace :=
  ⟨a.uploads ++ b.uploads, a.deletes ++ b.deletes, a.copies ++ b.copies,
   a.flushes + b.flushes, a.logs ++ b.logs, a.recreated ++ b.recreated⟩

/-- The upload decision of `re_curse` for a plain file (main.rs lines
230-236): `!existed || { if let Some(syncfrom) = env.syncfrom {
fs::metadata(&dp)?.ctime() > syncfrom } else { false } }`.
`ctimeRes` is the outcome of the fallible `fs::metadata(&dp)?.ctime()` call;
by short-circuiting it is only consulted when the entry existed remotely and
a `syncfrom` threshold is configured. -/
def uploadDecision (existed : Bool) (syncfrom : Option Int)
    (ctimeRes : Except String Int) : Except String Bool :=
  if existed then
    match syncfrom with
    | some t => ctimeRes.map (fun c => decide (t < c))
    | none => Except.ok false
  else Except.ok true

/-- The upload rule for size-diff mode exactly as the specification words it
(spec section 4.2): "upload iff the name did not previously exist remotely,
OR the remote recorded size differs from the local size".  This is the
refinement target to compare with `uploadDecision`, not code of the
program. -/
def sizeDiffShouldUpload (existed : Bool) (remoteSize localSize : Nat) : Bool :=
  !existed || (remoteSize != localSize)

/-- The autoflush setting the store session is created with (main.rs line
111): `autoflush(flushivl.map(|ivl| ivl <= Duration::from_secs(0)).unwrap_or(false))`.
Durations are modelled as natural numbers (they are non-negative). -/
def autoflushSetting (flushivl : Option Nat) : Bool :=
  (flushivl.map (fun ivl => decide (ivl ≤ 0))).getD false

/-- The rate-limited flush closure (main.rs lines 115-124).  `flushRes` is
the outcome the store returns if `flushdst.flush()` is called, `now` is the
value of `Instant::now()` at this tick.  Returns the closure's result, the
new `nextflush` deadline, and whether a flush call was issued. -/
def flushClosure (flushivl : Option Nat) (flushRes : Except String Unit)
    (now nextflush : Nat) : Except String Unit × Nat × Bool :=
  match flushivl with
  | none => (Except.ok (), nextflush, false)
  | some ivl =>
    if nextflush < now then
      match flushRes with
      | Except.error e => (Except.error e, nextflush, true)
      | Except.ok _ => (Except.ok (), now + ivl, true)
    else (Except.ok (), nextflush, false)

/-- C4: in change-time mode (`syncfrom = some t`), the upload decision is
`!existed || ctime > t`; no size is involved (the decision function has no
size input at all). -/
theorem changeTimeMode_decision (existed : Bool) (t c : Int) :
    uploadDecision existed (some t) (Except.ok c)
      = Except.ok (!existed || decide (t < c)) := by
  cases existed <;> simp [uploadDecision, Except.map]

/-- C1 counterexample: the claim that in size-diff mode (no `syncfrom`) the
code uploads iff the name was absent remotely OR the remote size differs
from the local size is false: at `existed = true`, remote size 5, local
size 10, ctime 0, the code declines to upload while the claimed rule
demands an upload. -/
theorem sizeDiffMode_claim_false :
    ¬ (∀ (existed : Bool) (remoteSize localSize : Nat) (c : Int),
        uploadDecision existed none (Except.ok c)
          = Except.ok (sizeDiffShouldUpload existed remoteSize localSize)) := by
  intro h
  have := h true 5 10 0
  simp [uploadDecision, sizeDiffShouldUpload] at this

/-- C1 amended: when no `syncfrom` threshold is configured, the code uploads
iff the name did not previously exist in the remote listing; the sizes are
never consulted (the remote listing is collected as a set of names only). -/
theorem sizeDiffMode_decision (existed : Bool) (ctimeRes : Except String Int) :
    uploadDecision existed none ctimeRes = Except.ok (!existed) := by
  cases existed <;> simp [uploadDecision]

/-- C7 counterexample: with a configured flush interval of zero the session
is created with autoflush enabled, contradicting the claim that every
configured interval disables autoflush. -/
theorem autoflush_zero_interval : autoflushSetting (some 0) = true := by
  decide

/-- C7 amended: for every configured positive flush interval the store
session is created with implicit autoflush disabled (a zero interval
instead enables autoflush). -/
theorem autoflush_positive_interval (ivl : Nat) (h : 0 < ivl) :
    autoflushSetting (some ivl) = false := by
  simp [autoflushSetting]
  omega

/-- Witness for `autoflush_positive_interval` at interval 1. -/
theorem autoflush_positive_interval_witness :
    0 < 1 ∧ autoflushSetting (some 1) = false :=
  ⟨by decide, autoflush_positive_interval 1 (by decide)⟩

/- The local directory tree as `re_curse` observes it, with the outcome of
every external call (local filesystem and store client) recorded at its call
site.

* `EntryKind.file` carries the outcomes of `fs::metadata(&dp)?.ctime()`, the
  store `add`, the `mfs.cd(name).cpf(&hash)` call, the `Instant::now()` value
  at the flush tick, and the `flushdst.flush()` outcome.
* `EntryKind.dir` carries the subtree for the recursive call.
* `EntryKind.symlink` carries the outcome of
  `diff_paths(&dp, &current_dir()?)` (source, relative to the sync root) and
  of `diff_paths(&dp.canonicalize()?, &dp)` (target, relative to the entry);
  the `Except` layer is the fallible call, the `Option` layer is
  `diff_paths` returning `None`.
* `Dirent.ftErr` is an entry whose `dent.file_type()` call fails;
  `Dirent.mk` records the raw (debug) name and the result of
  `file_name().to_str()` (`none` when the name is not unicode).
* `DirentList.skip` is a position where the `read_dir` iterator yielded
  `Err`, which `filter_map(|e| e.ok())` drops.
* `DirTree.mk` carries the outcomes of `mfs.ls()`, `mfs.mkdir()`,
  `mfs.stat()` (all for the listing phase), the outcome of `fs::read_dir`
  (`some` an error message when it fails), the entries, and the outcome of
  `mfs.cd(&ment).rm()` for each stale name. -/
mutual
inductive EntryKind : Type where
  | file (ctimeRes : Except String Int) (addRes : Except String String)
         (cpfRes : Except String Unit) (flushNow : Nat)
         (flushRes : Except String Unit)
  | dir (sub : DirTree)
  | symlink (srcRes : Except String (Option Path))
            (dstRes : Except String (Option Path))
inductive Dirent : Type where
  | ftErr (rawName : String) (name : Option String) (e : String)
  | mk (rawName : String) (name : Option String) (kind : EntryKind)
inductive DirentList : Type where
  | nil
  | skip (rest : DirentList)
  | cons (d : Dirent) (rest : DirentList)
inductive DirTree : Type where
  | mk (lsRes : Except String (List String)) (mkdirRes : Except String Unit)
       (statRes : Except String String) (readDirErr : Option String)
       (ents : DirentList) (rmStale : String → Except String Unit)
end

/-- The debug identity of an entry (Rust logs the whole `DirEntry` with
`{:?}`; we keep its name). -/
def Dirent.rawNameOf : Dirent → String
  | Dirent.ftErr rawName _ _ => rawName
  | Dirent.mk rawName _ _ => rawName

/-- The name an entry removes from the remote-state set, if it reaches the
`mfsents.remove(name)` line: `file_type()` must have succeeded and the name
must be representable as unicode. -/
def removalName : Dirent → Option String
  | Dirent.ftErr _ _ _ => none
  | Dirent.mk _ name _ => name

/-- Whether an entry matches (removes) the remote name `n`. -/
def direntMatches (d : Dirent) (n : String) : Bool :=
  removalName d == some n

/-- Whether some entry of the listing matches the remote name `n`. -/
def matchedB : DirentList → String → Bool
  | DirentList.nil, _ => false
  | DirentList.skip rest, n => matchedB rest n
  | DirentList.cons d rest, n => direntMatches d n || matchedB rest n

/-- The mutable state the Rust walk threads through one directory's loop:
the remote-state name set `mfsents`, the error counter `errs` (a `&mut u64`
shared through the recursion) and the flush closure's captured `nextflush`
deadline. -/
structure WalkSt where
  mfsents : List String
  errs : Nat
  nextflush : Nat
deriving Repr, DecidableEq

/-- The trace of one error log line `Error processing <entry>: <err>`
(main.rs line 257). -/
def errLog (rawName e : String) : Trace :=
  { Trace.empty with logs := ["Error processing " ++ rawName ++ ": " ++ e] }

/-- The listing phase of `re_curse` (main.rs lines 197-212): list the remote
directory; on failure remove whatever is there (best effort, result
ignored), create it fresh, and at verbosity at least 1 stat it (the stat's
failure propagates); the recreated directory contributes an empty listing. -/
def listingPhase (lsRes : Except String (List String))
    (mkdirRes : Except String Unit) (statRes : Except String String)
    (verbosity : Nat) (mfsPath : Path) :
    Except String (List String) × Trace :=
  match lsRes with
  | Except.ok names => (Except.ok names, Trace.empty)
  | Except.error _e =>
    match mkdirRes with
    | Except.error e2 =>
      (Except.error e2, { Trace.empty with recreated := [mfsPath] })
    | Except.ok _ =>
      if 1 ≤ verbosity then
        match statRes with
        | Except.error e3 =>
          (Except.error e3, { Trace.empty with recreated := [mfsPath] })
        | Except.ok _h =>
          (Except.ok [], { Trace.empty with recreated := [mfsPath] })
      else (Except.ok [], { Trace.empty with recreated := [mfsPath] })

/-- The stale-deletion loop of `re_curse` (main.rs lines 260-262):
`for ment in mfsents { mfs.cd(&ment).rm()?; }`.  A failing `rm` aborts the
remaining deletions.  Returns the loop's result and the deletion operations
issued (successfully) with their full paths. -/
def rmStaleLoop (rmStale : String → Except String Unit) (mfsPath : Path) :
    List String → Except String Unit × List Path
  | [] => (Except.ok (), [])
  | n :: rest =>
    match rmStale n with
    | Except.error e => (Except.error e, [])
    | Except.ok _ =>
      let r := rmStaleLoop rmStale mfsPath rest
      (r.1, (mfsPath ++ [n]) :: r.2)

mutual
/-- Processing of one local directory entry: the body of the closure at
main.rs lines 213-255.  Returns the closure's result carrying the symlink
tasks this entry contributes, the updated state, and the trace of store
operations issued. -/
def procEntry (d : Dirent) (mfsPath : Path) (env : Env) (st : WalkSt) :
    Except String (List (Path × Path)) × WalkSt × Trace :=
  match d with
  | Dirent.ftErr _ _ e => (Except.error e, st, Trace.empty)
  | Dirent.mk _ nameOpt kind =>
    match nameOpt with
    | none =>
      (Except.error "could not parse filename as unicode", st, Trace.empty)
    | some name =>
      let existed := st.mfsents.contains name
      let st1 : WalkSt := { st with mfsents := st.mfsents.erase name }
      match kind with
      | EntryKind.symlink srcRes dstRes =>
        match srcRes with
        | Except.error e => (Except.error e, st1, Trace.empty)
        | Except.ok none =>
          (Except.error "Could not get relative path for symlink source",
           st1, Trace.empty)
        | Except.ok (some src) =>
          match dstRes with
          | Except.error e => (Except.error e, st1, Trace.empty)
          | Except.ok none =>
            (Except.error "Could not get relative path for symlink destination",
             st1, Trace.empty)
          | Except.ok (some dst) => (Except.ok [(src, dst)], st1, Trace.empty)
      | EntryKind.dir sub =>
        let r := re_curse sub (mfsPath ++ [name]) env st1.errs st1.nextflush
        let st2 : WalkSt := { st1 with errs := r.2.1, nextflush := r.2.2.1 }
        (r.1, st2, r.2.2.2)
      | EntryKind.file ctimeRes addRes cpfRes flushNow flushRes =>
        match uploadDecision existed env.syncfrom ctimeRes with
        | Except.error e => (Except.error e, st1, Trace.empty)
        | Except.ok false => (Except.ok [], st1, Trace.empty)
        | Except.ok true =>
          match addRes with
          | Except.error e => (Except.error e, st1, Trace.empty)
          | Except.ok hash =>
            match cpfRes with
            | Except.error e => (Except.error e, st1, Trace.empty)
            | Except.ok _ =>
              let up : Trace :=
                { Trace.empty with uploads := [(mfsPath ++ [name], hash)] }
              let f := flushClosure env.flushivl flushRes flushNow st1.nextflush
              let st2 : WalkSt := { st1 with nextflush := f.2.1 }
              let tr := { up with flushes := if f.2.2 then 1 else 0 }
              match f.1 with
              | Except.error e => (Except.error e, st2, tr)
              | Except.ok _ => (Except.ok [], st2, tr)

/-- The entry loop of `re_curse` (main.rs lines 213-259): process each
(kept) entry; a failing entry is logged with its identity, counted, and the
loop continues with the siblings. -/
def walkEntries (l : DirentList) (mfsPath : Path) (env : Env) (st : WalkSt) :
    List (Path × Path) × WalkSt × Trace :=
  match l with
  | DirentList.nil => ([], st, Trace.empty)
  | DirentList.skip rest => walkEntries rest mfsPath env st
  | DirentList.cons d rest =>
    let r := procEntry d mfsPath env st
    match r.1 with
    | Except.ok syms =>
      let w := walkEntries rest mfsPath env r.2.1
      (syms ++ w.1, w.2.1, Trace.app r.2.2 w.2.2)
    | Except.error e =>
      let st' : WalkSt := { r.2.1 with errs := r.2.1.errs + 1 }
      let w := walkEntries rest mfsPath env st'
      (w.1, w.2.1,
       Trace.app (Trace.app r.2.2 (errLog d.rawNameOf e)) w.2.2)

/-- One directory's reconciliation, `re_curse` (main.rs lines 192-264).
Takes the threaded error counter and flush deadline; returns the result
(the collected symlink tasks), the updated counter and deadline, and the
trace of store operations. -/
def re_curse (t : DirTree) (mfsPath : Path) (env : Env) (errs : Nat)
    (nextflush : Nat) :
    Except String (List (Path × Path)) × Nat × Nat × Trace :=
  match t with
  | DirTree.mk lsRes mkdirRes statRes readDirErr ents rmStale =>
    match listingPhase lsRes mkdirRes statRes env.verbosity mfsPath with
    | (Except.error e, tr0) => (Except.error e, errs, nextflush, tr0)
    | (Except.ok names, tr0) =>
      match readDirErr with
      | some e => (Except.error e, errs, nextflush, tr0)
      | none =>
        let w := walkEntries ents mfsPath env ⟨names.dedup, errs, nextflush⟩
        let rm := rmStaleLoop rmStale mfsPath w.2.1.mfsents
        let tr := Trace.app (Trace.app tr0 w.2.2)
          { Trace.empty with deletes := rm.2 }
        match rm.1 with
        | Except.ok _ => (Except.ok w.1, w.2.1.errs, w.2.1.nextflush, tr)
        | Except.error e => (Except.error e, w.2.1.errs, w.2.1.nextflush, tr)
end

/-- The outcomes the store returns for one deferred symlink task in the
second pass: `to.stat()` on the target path, `from.stat()` on the source
path, and `from.cpf(&stat.Hash)`.  Stat results carry the `Hash` field. -/
structure SymTaskOracle where
  toStat : Except String String
  fromStat : Except String String
  cpfRes : Except String Unit

/-- The symlink-materialization pass (main.rs lines 137-163), run over the
deferred tasks.  A task `(src, rel)` resolves to source path `src` under the
destination root and target path `src ++ rel`.  Statting the target: on
failure, log and count an error and continue; on success, skip when the
source already has the same hash, otherwise issue `cpf` — whose failure
propagates (`?`) and ends the pass. -/
def symlinkPass (oracle : Path → Path → SymTaskOracle) :
    List (Path × Path) → Nat → Except String Unit × Nat × Trace
  | [], errs => (Except.ok (), errs, Trace.empty)
  | (src, rel) :: rest, errs =>
    let fromP := src
    let toP := src ++ rel
    let o := oracle fromP toP
    match o.toStat with
    | Except.ok h =>
      if (match o.fromStat with
          | Except.ok fh => fh == h
          | Except.error _ => false) then
        symlinkPass oracle rest errs
      else
        match o.cpfRes with
        | Except.error e =>
          (Except.error e, errs,
           { Trace.empty with copies := [(fromP, h)] })
        | Except.ok _ =>
          let w := symlinkPass oracle rest errs
          (w.1, w.2.1,
           Trace.app { Trace.empty with copies := [(fromP, h)] } w.2.2)
    | Except.error e =>
      let lg : Trace := { Trace.empty with logs :=
        ["Could resolve symlink from " ++ pathStr fromP ++ " to "
          ++ pathStr toP ++ " as copy: statting source: " ++ e] }
      let w := symlinkPass oracle rest (errs + 1)
      (w.1, w.2.1, Trace.app lg w.2.2)

/-- The outcomes of the run controller's own store calls: the unconditional
flush after the walk (main.rs line 133), the per-task symlink oracles, the
unconditional flush after the symlink pass (line 164), and the final
`dst.stat()` (line 165). -/
structure RunOracle where
  flush1Res : Except String Unit
  symOracle : Path → Path → SymTaskOracle
  flush2Res : Except String Unit
  rootStatRes : Except String String

/-- The run controller (the closure at main.rs lines 108-166, after
configuration): reconcile the root, flush, materialize the deferred
symlinks, flush again, and report the root hash with the error count.  Any
`Err` escaping this closure is the fatal outcome (`exit(-1)`). -/
def runSync (root : DirTree) (env : Env) (oracle : RunOracle) :
    Except String (String × Nat) × Trace :=
  let r := re_curse root [] env 0 0
  match r.1 with
  | Except.error e => (Except.error e, r.2.2.2)
  | Except.ok symlinks =>
    let tr1 := Trace.app r.2.2.2 { Trace.empty with flushes := 1 }
    match oracle.flush1Res with
    | Except.error e => (Except.error e, tr1)
    | Except.ok _ =>
      let s := symlinkPass oracle.symOracle symlinks r.2.1
      let tr2 := Trace.app tr1 s.2.2
      match s.1 with
      | Except.error e => (Except.error e, tr2)
      | Except.ok _ =>
        let tr3 := Trace.app tr2 { Trace.empty with flushes := 1 }
        match oracle.flush2Res with
        | Except.error e => (Except.error e, tr3)
        | Except.ok _ =>
          match oracle.rootStatRes with
          | Except.error e => (Except.error e, tr3)
          | Except.ok hash => (Except.ok (hash, s.2.1), tr3)

/-- The entry list with the failed directory-iteration results dropped. -/
def dropSkips : DirentList → DirentList
  | DirentList.nil => DirentList.nil
  | DirentList.skip rest => dropSkips rest
  | DirentList.cons d rest => DirentList.cons d (dropSkips rest)

/-- Deletions of a trace concatenation. -/
theorem Trace.app_deletes (a b : Trace) :
    (Trace.app a b).deletes = a.deletes ++ b.deletes := rfl

/-- Flush count of a trace concatenation. -/
theorem Trace.app_flushes (a b : Trace) :
    (Trace.app a b).flushes = a.flushes + b.flushes := rfl

/-- Whatever an entry's processing does, its only effect on the
remote-state set is the single `mfsents.remove(name)` it performs when it
reaches that line (the erased name survives even if the entry later
fails). -/
theorem procEntry_mfsents (d : Dirent) (mfsPath : Path) (env : Env)
    (st : WalkSt) :
    (procEntry d mfsPath env st).2.1.mfsents =
      match removalName d with
      | some n => st.mfsents.erase n
      | none => st.mfsents := by
  cases d with
  | ftErr rawName name e => rfl
  | mk rawName nameOpt kind =>
    cases nameOpt with
    | none => rfl
    | some name =>
      cases kind with
      | symlink srcRes dstRes =>
        rcases srcRes with e | src
        · rfl
        · rcases src with _ | src
          · rfl
          · rcases dstRes with e | dst
            · rfl
            · rcases dst with _ | dst <;> rfl
      | dir sub => rfl
      | file ctimeRes addRes cpfRes flushNow flushRes =>
        simp only [procEntry, removalName]
        repeat' split
        all_goals rfl

/-- After the entry loop, the remote-state set holds exactly the initial
names no entry matched. -/
theorem walkEntries_mfsents :
    ∀ (l : DirentList) (mfsPath : Path) (env : Env) (st : WalkSt),
      st.mfsents.Nodup →
      (walkEntries l mfsPath env st).2.1.mfsents
        = st.mfsents.filter (fun n => !(matchedB l n))
  | DirentList.nil, mfsPath, env, st, _h => by
      simp [walkEntries, matchedB]
  | DirentList.skip rest, mfsPath, env, st, h => by
      simp only [walkEntries, matchedB]
      exact walkEntries_mfsents rest mfsPath env st h
  | DirentList.cons d rest, mfsPath, env, st, h => by
      have hm := procEntry_mfsents d mfsPath env st
      have hnodup : (procEntry d mfsPath env st).2.1.mfsents.Nodup := by
        rw [hm]
        cases hr : removalName d with
        | none => exact h
        | some m => exact h.erase m
      simp only [walkEntries]
      have key : ∀ st' : WalkSt,
          st'.mfsents = (procEntry d mfsPath env st).2.1.mfsents →
          (walkEntries rest mfsPath env st').2.1.mfsents
            = st.mfsents.filter (fun n => !(matchedB (DirentList.cons d rest) n)) := by
        intro st' hst'
        rw [walkEntries_mfsents rest mfsPath env st' (hst' ▸ hnodup), hst']
        cases hr : removalName d with
        | none =>
          simp only [hm, hr]
          refine List.filter_congr ?_
          intro x _
          simp [matchedB, direntMatches, hr]
        | some m =>
          simp only [hm, hr]
          rw [List.Nodup.erase_eq_filter h m, List.filter_filter]
          refine List.filter_congr ?_
          intro x _
          simp only [matchedB, direntMatches, hr, Bool.not_or]
          by_cases hx : x = m <;>
            cases hb : matchedB rest x <;>
              first
              | (simp [hx, hb, bne, beq_iff_eq, eq_comm];
                 exact fun hmx => hx hmx.symm)
              | simp [hx, hb, bne, beq_iff_eq, eq_comm]
      split
      · exact key _ rfl
      · exact key _ rfl

/-- When every stale `rm` call succeeds, the deletion loop issues exactly
one deletion per remaining name. -/
theorem rmStaleLoop_ok (rmS : String → Except String Unit) (p : Path)
    (h : ∀ s, rmS s = Except.ok ()) :
    ∀ ms : List String,
      rmStaleLoop rmS p ms = (Except.ok (), ms.map (fun n => p ++ [n]))
  | [] => rfl
  | n :: rest => by
      simp [rmStaleLoop, h n, rmStaleLoop_ok rmS p h rest]

/-- C2: reconciling a directory whose remote listing succeeded, whose local
`read_dir` succeeded, and whose stale deletions all succeed, does not
abort, and every name of the initial remote listing that no local entry
matched (an entry matches when its `file_type` call succeeds and its
unicode name equals the remote name) is deleted from the remote tree. -/
theorem stale_entries_deleted (names : List String)
    (mkd : Except String Unit) (statR : Except String String)
    (ents : DirentList) (rmS : String → Except String Unit) (p : Path)
    (env : Env) (errs nf : Nat) (hrm : ∀ s, rmS s = Except.ok ()) :
    (∃ syms,
      (re_curse (DirTree.mk (Except.ok names) mkd statR none ents rmS)
          p env errs nf).1 = Except.ok syms) ∧
    ∀ n, n ∈ names → matchedB ents n = false →
      (p ++ [n]) ∈
        (re_curse (DirTree.mk (Except.ok names) mkd statR none ents rmS)
            p env errs nf).2.2.2.deletes := by
  have hw := walkEntries_mfsents ents p env ⟨names.dedup, errs, nf⟩
    (List.nodup_dedup names)
  have hloop := rmStaleLoop_ok rmS p hrm
    ((walkEntries ents p env ⟨names.dedup, errs, nf⟩).2.1.mfsents)
  constructor
  · refine ⟨(walkEntries ents p env ⟨names.dedup, errs, nf⟩).1, ?_⟩
    simp [re_curse, listingPhase, hloop]
  · intro n hn hnm
    simp only [re_curse, listingPhase, hloop]
    simp only [Trace.app_deletes, List.mem_append]
    right
    rw [hw]
    simp only [List.mem_map]
    refine ⟨n, ?_, rfl⟩
    rw [List.mem_filter]
    exact ⟨List.mem_dedup.mpr hn, by simp [hnm]⟩

/-- A concrete environment: verbosity 0, no flush interval, no syncfrom. -/
def envS : Env := ⟨0, none, false, none⟩

/-- A concrete always-succeeding stale-deletion oracle. -/
def rmOk : String → Except String Unit := fun _ => Except.ok ()

/-- A concrete local file entry named `kept` whose store calls succeed. -/
def entKept : Dirent :=
  Dirent.mk "kept" (some "kept")
    (EntryKind.file (Except.ok 0) (Except.ok "Hk") (Except.ok ()) 0
      (Except.ok ()))

/-- Witness for `stale_entries_deleted`: with remote listing
`["stale", "kept"]` and a single local file `kept`, the stale name is
deleted. -/
theorem stale_entries_deleted_witness :
    (∀ s : String, rmOk s = Except.ok ()) ∧
    ([] ++ ["stale"]) ∈
      (re_curse
          (DirTree.mk (Except.ok ["stale", "kept"]) (Except.ok ())
            (Except.ok "H") none (DirentList.cons entKept DirentList.nil)
            rmOk)
          [] envS 0 0).2.2.2.deletes :=
  ⟨fun _ => rfl,
   (stale_entries_deleted ["stale", "kept"] (Except.ok ()) (Except.ok "H")
       (DirentList.cons entKept DirentList.nil) rmOk [] envS 0 0
       (fun _ => rfl)).2
     "stale" (by decide) (by decide)⟩

/-- C5: a failing entry is caught at the entry boundary: the loop logs the
entry's identity, bumps the error counter by exactly one, and processes the
remaining siblings from the post-entry state; and a directory whose own
listing, `read_dir` and stale deletions succeed never aborts, whatever its
entries do. -/
theorem entry_failure_contained :
    (∀ (d : Dirent) (rest : DirentList) (mfsPath : Path) (env : Env)
        (st : WalkSt) (e : String) (st1 : WalkSt) (tr1 : Trace),
      procEntry d mfsPath env st = (Except.error e, st1, tr1) →
      walkEntries (DirentList.cons d rest) mfsPath env st
        = ((walkEntries rest mfsPath env { st1 with errs := st1.errs + 1 }).1,
           (walkEntries rest mfsPath env { st1 with errs := st1.errs + 1 }).2.1,
           Trace.app (Trace.app tr1 (errLog d.rawNameOf e))
             (walkEntries rest mfsPath env
               { st1 with errs := st1.errs + 1 }).2.2))
  ∧ (∀ (names : List String) (mkd : Except String Unit)
        (statR : Except String String) (ents : DirentList)
        (rmS : String → Except String Unit) (p : Path) (env : Env)
        (errs nf : Nat), (∀ s, rmS s = Except.ok ()) →
      (re_curse (DirTree.mk (Except.ok names) mkd statR none ents rmS)
          p env errs nf).1
        = Except.ok ((walkEntries ents p env ⟨names.dedup, errs, nf⟩).1)) := by
  constructor
  · intro d rest mfsPath env st e st1 tr1 h
    simp [walkEntries, h]
  · intro names mkd statR ents rmS p env errs nf hrm
    have hloop := rmStaleLoop_ok rmS p hrm
      ((walkEntries ents p env ⟨names.dedup, errs, nf⟩).2.1.mfsents)
    simp [re_curse, listingPhase, hloop]

/-- A concrete entry whose store `add` call fails. -/
def entBad : Dirent :=
  Dirent.mk "bad" (some "bad")
    (EntryKind.file (Except.ok 0) (Except.error "addfail") (Except.ok ()) 0
      (Except.ok ()))

/-- Witness for `entry_failure_contained`: the failing `add` of entry `bad`
is counted once and a trivial directory reconciles cleanly. -/
theorem entry_failure_contained_witness :
    (walkEntries (DirentList.cons entBad DirentList.nil) [] envS
        ⟨[], 0, 0⟩).2.1.errs = 1 ∧
    (re_curse (DirTree.mk (Except.ok []) (Except.ok ()) (Except.ok "H")
        none DirentList.nil rmOk) [] envS 0 0).1 = Except.ok [] := by
  constructor
  · rw [entry_failure_contained.1 entBad DirentList.nil [] envS ⟨[], 0, 0⟩
      "addfail" ⟨[], 0, 0⟩ Trace.empty rfl]
    rfl
  · rw [entry_failure_contained.2 [] (Except.ok ()) (Except.ok "H")
      DirentList.nil rmOk [] envS 0 0 (fun _ => rfl)]
    rfl

/-- C9: a failing stale deletion is not absorbed as a per-entry error of its
own directory: it aborts the remaining stale deletions, propagates out of
that directory's `re_curse`, is caught at the parent's entry boundary as
one entry error (siblings continue), and at the root it makes the whole
run fatal. -/
theorem rm_failure_propagation :
    (∀ (rmS : String → Except String Unit) (p : Path) (n : String)
        (rest : List String) (e : String),
      rmS n = Except.error e →
      rmStaleLoop rmS p (n :: rest) = (Except.error e, []))
  ∧ (∀ (names : List String) (mkd : Except String Unit)
        (statR : Except String String) (ents : DirentList)
        (rmS : String → Except String Unit) (p : Path) (env : Env)
        (errs nf : Nat) (msg : String) (dels : List Path),
      rmStaleLoop rmS p
          ((walkEntries ents p env ⟨names.dedup, errs, nf⟩).2.1.mfsents)
        = (Except.error msg, dels) →
      (re_curse (DirTree.mk (Except.ok names) mkd statR none ents rmS)
          p env errs nf).1 = Except.error msg)
  ∧ (∀ (rawName name : String) (sub : DirTree) (p : Path) (env : Env)
        (st : WalkSt) (msg : String),
      (re_curse sub (p ++ [name]) env st.errs st.nextflush).1
        = Except.error msg →
      (procEntry (Dirent.mk rawName (some name) (EntryKind.dir sub))
          p env st).1 = Except.error msg)
  ∧ (∀ (d : Dirent) (rest : DirentList) (mfsPath : Path) (env : Env)
        (st : WalkSt) (e : String) (st1 : WalkSt) (tr1 : Trace),
      procEntry d mfsPath env st = (Except.error e, st1, tr1) →
      (walkEntries (DirentList.cons d rest) mfsPath env st).2.1
        = (walkEntries rest mfsPath env
            { st1 with errs := st1.errs + 1 }).2.1)
  ∧ (∀ (root : DirTree) (env : Env) (o : RunOracle) (msg : String),
      (re_curse root [] env 0 0).1 = Except.error msg →
      (runSync root env o).1 = Except.error msg) := by
  refine ⟨?_, ?_, ?_, ?_, ?_⟩
  · intro rmS p n rest e h
    simp [rmStaleLoop, h]
  · intro names mkd statR ents rmS p env errs nf msg dels h
    simp [re_curse, listingPhase, h]
  · intro rawName name sub p env st msg h
    simp [procEntry, h]
  · intro d rest mfsPath env st e st1 tr1 h
    simp [walkEntries, h]
  · intro root env o msg h
    simp [runSync, h]

/-- A concrete failing stale-deletion oracle. -/
def rmFail : String → Except String Unit := fun _ => Except.error "rmfail"

/-- A concrete directory whose remote listing holds a stale name and whose
stale deletion fails. -/
def dirRmBad : DirTree :=
  DirTree.mk (Except.ok ["stale"]) (Except.ok ()) (Except.ok "H") none
    DirentList.nil rmFail

/-- A concrete run oracle whose own calls all succeed. -/
def runOracleOk : RunOracle :=
  ⟨Except.ok (), fun _ _ => ⟨Except.ok "T", Except.ok "T", Except.ok ()⟩,
   Except.ok (), Except.ok "H"⟩

/-- Witness for `rm_failure_propagation` on a concrete failing deletion. -/
theorem rm_failure_propagation_witness :
    rmStaleLoop rmFail [] ["stale"] = (Except.error "rmfail", []) ∧
    (re_curse dirRmBad [] envS 0 0).1 = Except.error "rmfail" ∧
    (procEntry (Dirent.mk "d" (some "d") (EntryKind.dir dirRmBad)) []
        envS ⟨[], 0, 0⟩).1 = Except.error "rmfail" ∧
    (walkEntries
        (DirentList.cons (Dirent.mk "d" (some "d") (EntryKind.dir dirRmBad))
          DirentList.nil) [] envS ⟨[], 0, 0⟩).2.1.errs = 1 ∧
    (runSync dirRmBad envS runOracleOk).1 = Except.error "rmfail" :=
  ⟨rm_failure_propagation.1 rmFail [] "stale" [] "rmfail" rfl,
   rm_failure_propagation.2.1 ["stale"] (Except.ok ()) (Except.ok "H")
     DirentList.nil rmFail [] envS 0 0 "rmfail" [] rfl,
   rm_failure_propagation.2.2.1 "d" "d" dirRmBad [] envS ⟨[], 0, 0⟩
     "rmfail" rfl,
   by
     rw [rm_failure_propagation.2.2.2.1
       (Dirent.mk "d" (some "d") (EntryKind.dir dirRmBad)) DirentList.nil
       [] envS ⟨[], 0, 0⟩ "rmfail" ⟨[], 0, 0⟩
       { Trace.empty with recreated := [], deletes := [] } (by rfl)]
     rfl,
   rm_failure_propagation.2.2.2.2 dirRmBad envS runOracleOk "rmfail" rfl⟩

/-- C10: entries whose directory-iteration result is an error are dropped
by `filter_map(|e| e.ok())`: the walk behaves exactly as if they were not
there — nothing processed, nothing logged, nothing counted. -/
theorem skipped_dirents_invisible :
    ∀ (l : DirentList) (mfsPath : Path) (env : Env) (st : WalkSt),
      walkEntries l mfsPath env st = walkEntries (dropSkips l) mfsPath env st
  | DirentList.nil, _, _, _ => rfl
  | DirentList.skip rest, mfsPath, env, st => by
      simp only [walkEntries, dropSkips]
      exact skipped_dirents_invisible rest mfsPath env st
  | DirentList.cons d rest, mfsPath, env, st => by
      have ih := skipped_dirents_invisible rest
      simp only [walkEntries, dropSkips]
      cases hr : (procEntry d mfsPath env st).1 <;>
        simp [hr, ih]

/-- When every `cpf` the symlink pass could issue succeeds, the pass never
aborts: target-stat failures are absorbed per task. -/
theorem symlinkPass_no_abort (o : Path → Path → SymTaskOracle)
    (h : ∀ p q, (o p q).cpfRes = Except.ok ()) :
    ∀ (tasks : List (Path × Path)) (errs : Nat),
      (symlinkPass o tasks errs).1 = Except.ok ()
  | [], _ => rfl
  | (src, rel) :: rest, errs => by
      simp only [symlinkPass]
      cases hts : (o src (src ++ rel)).toStat with
      | error e => simpa using symlinkPass_no_abort o h rest (errs + 1)
      | ok hh =>
        simp only []
        split
        · exact symlinkPass_no_abort o h rest errs
        · rw [h src (src ++ rel)]
          simpa using symlinkPass_no_abort o h rest errs

/-- C3 amended: in the symlink pass, a failure while statting the target
records an error-log line, bumps the error counter by one, and processing
continues with the remaining symlinks; and when every copy call succeeds
the pass never aborts.  (A failing copy call, by contrast, does abort the
run — see the counterexample.) -/
theorem symlink_stat_failure_contained :
    (∀ (o : Path → Path → SymTaskOracle) (src rel : Path)
        (rest : List (Path × Path)) (errs : Nat) (e : String),
      (o src (src ++ rel)).toStat = Except.error e →
      symlinkPass o ((src, rel) :: rest) errs
        = ((symlinkPass o rest (errs + 1)).1,
           (symlinkPass o rest (errs + 1)).2.1,
           Trace.app
             { Trace.empty with logs :=
                ["Could resolve symlink from " ++ pathStr src ++ " to "
                  ++ pathStr (src ++ rel)
                  ++ " as copy: statting source: " ++ e] }
             (symlinkPass o rest (errs + 1)).2.2))
  ∧ (∀ (o : Path → Path → SymTaskOracle) (tasks : List (Path × Path))
        (errs : Nat), (∀ p q, (o p q).cpfRes = Except.ok ()) →
      (symlinkPass o tasks errs).1 = Except.ok ()) := by
  constructor
  · intro o src rel rest errs e h
    simp [symlinkPass, h]
  · intro o tasks errs h
    exact symlinkPass_no_abort o h tasks errs

/-- A concrete symlink-task oracle: target stat succeeds with hash `T`,
source stat fails (no prior content), the copy call fails. -/
def symOracleCpfBad : Path → Path → SymTaskOracle :=
  fun _ _ => ⟨Except.ok "T", Except.error "nostat", Except.error "cpffail"⟩

/-- A concrete source tree holding one symlink `s` resolving to `t`. -/
def rootOneSymlink : DirTree :=
  DirTree.mk (Except.ok []) (Except.ok ()) (Except.ok "H") none
    (DirentList.cons
      (Dirent.mk "s" (some "s")
        (EntryKind.symlink (Except.ok (some ["s"])) (Except.ok (some ["t"]))))
      DirentList.nil)
    rmOk

/-- C3 counterexample: a failure while processing a symlink task can abort
the whole run: with one deferred symlink whose `cpf` call fails, the run
ends fatally instead of recording a per-entry error. -/
theorem symlink_copy_failure_aborts :
    (runSync rootOneSymlink envS
        ⟨Except.ok (), symOracleCpfBad, Except.ok (), Except.ok "H"⟩).1
      = Except.error "cpffail" := by
  rfl

/-- A concrete symlink-task oracle for the witness of the stat-failure
case. -/
def symOracleStatBad : Path → Path → SymTaskOracle :=
  fun _ _ => ⟨Except.error "notarget", Except.error "nostat", Except.ok ()⟩

/-- Witness for `symlink_stat_failure_contained` on one concrete task whose
target stat fails. -/
theorem symlink_stat_failure_contained_witness :
    (symlinkPass symOracleStatBad [(["s"], ["t"])] 0).2.1 = 1 ∧
    (symlinkPass symOracleStatBad [(["s"], ["t"])] 0).1 = Except.ok () := by
  constructor
  · rw [symlink_stat_failure_contained.1 symOracleStatBad ["s"] ["t"] [] 0
      "notarget" rfl]
    rfl
  · exact symlink_stat_failure_contained.2 symOracleStatBad [(["s"], ["t"])]
      0 (fun _ _ => rfl)

/-- C8: if the source path of a deferred symlink already has remote content
whose hash equals the target's current hash, the task is skipped entirely:
no copy is issued, no error is counted, and the pass continues exactly as
if the task were absent. -/
theorem symlink_skip_when_hash_equal (o : Path → Path → SymTaskOracle)
    (src rel : Path) (rest : List (Path × Path)) (errs : Nat) (h : String)
    (hto : (o src (src ++ rel)).toStat = Except.ok h)
    (hfrom : (o src (src ++ rel)).fromStat = Except.ok h) :
    symlinkPass o ((src, rel) :: rest) errs = symlinkPass o rest errs := by
  simp [symlinkPass, hto, hfrom]

/-- A concrete symlink-task oracle where source and target hashes agree. -/
def symOracleSame : Path → Path → SymTaskOracle :=
  fun _ _ => ⟨Except.ok "T", Except.ok "T", Except.error "nocopyplease"⟩

/-- Witness for `symlink_skip_when_hash_equal`: the matching task performs
no copy (even though a copy call would fail). -/
theorem symlink_skip_when_hash_equal_witness :
    symlinkPass symOracleSame [(["s"], ["t"])] 0
      = symlinkPass symOracleSame [] 0 ∧
    (symlinkPass symOracleSame [(["s"], ["t"])] 0).2.2.copies = [] :=
  ⟨symlink_skip_when_hash_equal symOracleSame ["s"] ["t"] [] 0 "T" rfl rfl,
   by
     rw [symlink_skip_when_hash_equal symOracleSame ["s"] ["t"] [] 0 "T"
       rfl rfl]
     rfl⟩

/-- The listing phase issues no flush. -/
theorem listingPhase_flushes (lsRes : Except String (List String))
    (mkdirRes : Except String Unit) (statRes : Except String String)
    (verbosity : Nat) (mfsPath : Path) :
    (listingPhase lsRes mkdirRes statRes verbosity mfsPath).2.flushes = 0 := by
  simp only [listingPhase]
  repeat' split
  all_goals rfl

/-- The symlink pass issues no flush. -/
theorem symlinkPass_flushes (o : Path → Path → SymTaskOracle) :
    ∀ (tasks : List (Path × Path)) (errs : Nat),
      (symlinkPass o tasks errs).2.2.flushes = 0
  | [], _ => rfl
  | (src, rel) :: rest, errs => by
      simp only [symlinkPass]
      cases hts : (o src (src ++ rel)).toStat with
      | error e =>
        simp [Trace.app_flushes]
        exact ⟨rfl, symlinkPass_flushes o rest (errs + 1)⟩
      | ok hh =>
        simp only []
        split
        · exact symlinkPass_flushes o rest errs
        · cases hc : (o src (src ++ rel)).cpfRes with
          | error e => rfl
          | ok u =>
            simp [Trace.app_flushes]
            exact ⟨rfl, symlinkPass_flushes o rest errs⟩

mutual
/-- With no configured interval, an entry's processing issues no flush. -/
theorem procEntry_flushes_none (d : Dirent) (mfsPath : Path) (env : Env)
    (st : WalkSt) (h : env.flushivl = none) :
    (procEntry d mfsPath env st).2.2.flushes = 0 := by
  cases d with
  | ftErr rawName name e => rfl
  | mk rawName nameOpt kind =>
    cases nameOpt with
    | none => rfl
    | some name =>
      cases kind with
      | symlink srcRes dstRes =>
        rcases srcRes with e | src
        · rfl
        · rcases src with _ | src
          · rfl
          · rcases dstRes with e | dst
            · rfl
            · rcases dst with _ | dst <;> rfl
      | dir sub =>
        exact re_curse_flushes_none sub (mfsPath ++ [name]) env _ _ h
      | file ctimeRes addRes cpfRes flushNow flushRes =>
        simp only [procEntry]
        repeat' split
        all_goals simp_all [flushClosure, Trace.empty]

/-- With no configured interval, the entry loop issues no flush. -/
theorem walkEntries_flushes_none (l : DirentList) (mfsPath : Path)
    (env : Env) (st : WalkSt) (h : env.flushivl = none) :
    (walkEntries l mfsPath env st).2.2.flushes = 0 := by
  cases l with
  | nil => rfl
  | skip rest =>
    simp only [walkEntries]
    exact walkEntries_flushes_none rest mfsPath env st h
  | cons d rest =>
    have hp := procEntry_flushes_none d mfsPath env st h
    simp only [walkEntries]
    cases hr : (procEntry d mfsPath env st).1 with
    | ok syms =>
      simp only [Trace.app_flushes]
      rw [hp, walkEntries_flushes_none rest mfsPath env _ h]
    | error e =>
      simp only [Trace.app_flushes]
      rw [hp, walkEntries_flushes_none rest mfsPath env _ h]
      rfl

/-- With no configured interval, a directory's reconciliation issues no
flush. -/
theorem re_curse_flushes_none (t : DirTree) (mfsPath : Path) (env : Env)
    (errs nf : Nat) (h : env.flushivl = none) :
    (re_curse t mfsPath env errs nf).2.2.2.flushes = 0 := by
  cases t with
  | mk lsRes mkdirRes statRes readDirErr ents rmStale =>
    have hl := listingPhase_flushes lsRes mkdirRes statRes env.verbosity
      mfsPath
    simp only [re_curse]
    split
    · next e tr0 heq =>
        rw [heq] at hl
        simpa using hl
    · next names tr0 heq =>
        rw [heq] at hl
        simp only [Prod.snd] at hl
        cases readDirErr with
        | some e => simpa using hl
        | none =>
          have hw := walkEntries_flushes_none ents mfsPath env
            ⟨names.dedup, errs, nf⟩ h
          cases hrm : (rmStaleLoop rmStale mfsPath
              (walkEntries ents mfsPath env
                ⟨names.dedup, errs, nf⟩).2.1.mfsents).1 <;>
            simp_all [Trace.app_flushes, Trace.empty]
end

/-- C6: with a configured interval, the per-upload flush tick issues a
flush iff `now` is past the stored deadline, and on a successful flush the
deadline becomes `now + interval`, otherwise the tick changes nothing; with
no configured interval the tick is a no-op, and a completed run's only
flushes are the two unconditional ones the run controller performs after
the walk and after the symlink pass. -/
theorem flush_cadence :
    (∀ (ivl : Nat) (fr : Except String Unit) (now nf : Nat),
      (flushClosure (some ivl) fr now nf).2.2 = true ↔ nf < now)
  ∧ (∀ (ivl now nf : Nat), nf < now →
      flushClosure (some ivl) (Except.ok ()) now nf
        = (Except.ok (), now + ivl, true))
  ∧ (∀ (ivl : Nat) (fr : Except String Unit) (now nf : Nat), ¬ nf < now →
      flushClosure (some ivl) fr now nf = (Except.ok (), nf, false))
  ∧ (∀ (fr : Except String Unit) (now nf : Nat),
      flushClosure none fr now nf = (Except.ok (), nf, false))
  ∧ (∀ (root : DirTree) (env : Env) (o : RunOracle) (res : String × Nat),
      env.flushivl = none → (runSync root env o).1 = Except.ok res →
      (runSync root env o).2.flushes = 2) := by
  refine ⟨?_, ?_, ?_, ?_, ?_⟩
  · intro ivl fr now nf
    simp only [flushClosure]
    split
    · cases fr <;> simp_all
    · simp_all
  · intro ivl now nf hlt
    simp [flushClosure, hlt]
  · intro ivl fr now nf hge
    simp [flushClosure, hge]
  · intro fr now nf
    rfl
  · intro root env o res hiv hok
    have hwalk := re_curse_flushes_none root [] env 0 0 hiv
    have hsym := symlinkPass_flushes o.symOracle
    cases hr1 : (re_curse root [] env 0 0).1 with
    | error e => simp [runSync, hr1] at hok
    | ok syms =>
      cases hf1 : o.flush1Res with
      | error e => simp [runSync, hr1, hf1] at hok
      | ok u =>
        cases hs : (symlinkPass o.symOracle syms
            (re_curse root [] env 0 0).2.1).1 with
        | error e => simp [runSync, hr1, hf1, hs] at hok
        | ok u2 =>
          cases hf2 : o.flush2Res with
          | error e => simp [runSync, hr1, hf1, hs, hf2] at hok
          | ok u3 =>
            cases hst : o.rootStatRes with
            | error e => simp [runSync, hr1, hf1, hs, hf2, hst] at hok
            | ok hash =>
              simp [runSync, hr1, hf1, hs, hf2, hst, Trace.app_flushes,
                hwalk, hsym, Trace.empty]

/-- A concrete trivial source tree that reconciles cleanly. -/
def rootTrivial : DirTree :=
  DirTree.mk (Except.ok []) (Except.ok ()) (Except.ok "H") none
    DirentList.nil rmOk

/-- Witness for `flush_cadence`: a tick past the deadline flushes and
resets the deadline, and a completed no-interval run flushes exactly
twice. -/
theorem flush_cadence_witness :
    (0 < 1 ∧ flushClosure (some 5) (Except.ok ()) 1 0
        = (Except.ok (), 1 + 5, true)) ∧
    (runSync rootTrivial envS runOracleOk).2.flushes = 2 :=
  ⟨⟨by decide, flush_cadence.2.1 5 1 0 (by decide)⟩,
   flush_cadence.2.2.2.2 rootTrivial envS runOracleOk ("H", 0) rfl rfl⟩

end IpfsSync
